import Mathlib

/-!
Verification of the `move-skills` installer CLI (`src/cli.js`).

The program is a small installer: it resolves a platform-specific
destination directory, ensures it exists, verifies the bundled source
root, and for each of a fixed list of plugin names removes any stale
copy at the destination and recursively copies the bundled tree there,
reporting progress on the console and exiting non-zero on fatal errors.

The filesystem is embedded as a list of file entries (path paired with
content) together with a list of directory entries; a path component
list addresses a node, and a path exists when some recorded entry lies
at or below it (so ancestors of recorded entries exist implicitly, as
on a real filesystem). The fs-extra operations used by the program
(`pathExists`, `ensureDir`, `remove`, `copy`) are given their
recursive-tree semantics over this representation. Environmental
failure of the recursive copy (permissions, disk full) is modelled by
an oracle in the environment giving, per unit name, the error message
the copy throws, if any; `none` everywhere models an untroubled run.
-/

namespace MoveSkills

/-- A filesystem path, as its list of components. -/
abbrev Path : Type := List String

/-- A filesystem: file entries (absolute path, byte content) and
directory entries. Directories that merely contain recorded entries
exist implicitly via the prefix order on paths. -/
structure FS where
  files : List (Path × String)
  dirs : List Path
deriving DecidableEq, Repr

/-- `fs.pathExists p` holds when some recorded entry lies at or below
`p`, i.e. `p` is a prefix of a recorded file path or directory path.
Mirrors `fs.pathExists` of fs-extra. -/
def FS.pathExists (fs : FS) (p : Path) : Bool :=
  fs.dirs.any (fun d => p.isPrefixOf d) || fs.files.any (fun f => p.isPrefixOf f.1)

/-- `fs.ensureDir p`: create the directory `p` (with ancestors, which
exist implicitly) when it does not already exist. Mirrors
`fs.ensureDir` of fs-extra (`mkdir -p`). -/
def FS.ensureDir (fs : FS) (p : Path) : FS :=
  if fs.pathExists p then fs else { fs with dirs := fs.dirs ++ [p] }

/-- `fs.remove p`: recursive delete of the node at `p`, removing every
recorded entry at or below `p`. Mirrors `fs.remove` of fs-extra. -/
def FS.remove (fs : FS) (p : Path) : FS :=
  { files := fs.files.filter (fun f => !(p.isPrefixOf f.1)),
    dirs := fs.dirs.filter (fun d => !(p.isPrefixOf d)) }

/-- `fs.copy src dst`: recursive copy of the tree rooted at `src` to
`dst`, preserving relative structure. Mirrors `fs.copy` of fs-extra:
the destination directory itself is created, and every recorded entry
below `src` reappears below `dst` with the same relative path. -/
def FS.copy (fs : FS) (src dst : Path) : FS :=
  { files := fs.files ++ (fs.files.filter (fun f => src.isPrefixOf f.1)).map
      (fun f => (dst ++ f.1.drop src.length, f.2)),
    dirs := fs.dirs ++ dst :: (fs.dirs.filter (fun d => src.isPrefixOf d)).map
      (fun d => dst ++ d.drop src.length) }

/-- The tree below `p`: every recorded file at or below `p`, keyed by
its path relative to `p`. Two installations agree below `p` exactly
when this list agrees. -/
def FS.filesUnder (fs : FS) (p : Path) : List (Path × String) :=
  (fs.files.filter (fun f => p.isPrefixOf f.1)).map (fun f => (f.1.drop p.length, f.2))

/-- A console message, tagged with the channel used
(`console.log` / `console.warn` / `console.error`). -/
inductive Msg where
  | info (s : String)
  | warn (s : String)
  | error (s : String)
deriving DecidableEq, Repr

/-- True exactly on warning messages. -/
def Msg.isWarn : Msg → Bool
  | Msg.warn _ => true
  | _ => false

/-- The process environment the CLI reads: `os.platform()`,
`os.homedir()`, the package directory `__dirname`, the initial
filesystem, and the copy-failure oracle (which unit copies throw,
and with what message). -/
structure Env where
  platform : String
  home : Path
  dirname : Path
  copyFails : String → Option String

/-- `CLAUDE_SKILLS_DIRS[platform]`: the platform-to-destination table
at the top of `cli.js`, as a lookup returning `none` off the three
supported keys. -/
def CLAUDE_SKILLS_DIRS (home : Path) (platform : String) : Option Path :=
  if platform = "darwin" then some (home ++ ["Library", "Application Support", "Claude", "skills"])
  else if platform = "linux" then some (home ++ [".config", "Claude", "skills"])
  else if platform = "win32" then some (home ++ ["AppData", "Roaming", "Claude", "skills"])
  else none

/-- The fixed list of content units: `const plugins = [...]`. -/
def plugins : List String := ["aptos-move-contract", "aptos-ts-sdk"]

/-- `path.join(sourceDir, plugin, 'skills', plugin)`. -/
def sourcePathOf (sourceDir : Path) (plugin : String) : Path :=
  sourceDir ++ [plugin, "skills", plugin]

/-- `path.join(skillsDir, plugin)`. -/
def targetPathOf (skillsDir : Path) (plugin : String) : Path :=
  skillsDir ++ [plugin]

/-- `path.join(__dirname, 'move_claude_skill', 'plugins')`. -/
def sourceRootOf (env : Env) : Path :=
  env.dirname ++ ["move_claude_skill", "plugins"]

/-- Mutable run state: the filesystem, the console transcript, and the
units installed so far in this run. -/
structure St where
  fs : FS
  msgs : List Msg
  installed : List String
deriving Repr

/-- The summary bullet naming one available skill
(`console.log` lines at the end of a successful `init`). -/
def summaryBullet (plugin desc : String) : Msg :=
  Msg.info (s!"  - {plugin} - {desc}")

/-- The fixed success-summary block printed after the unit loop. -/
def summaryMsgs : List Msg :=
  [Msg.info "Move Skills installed successfully!",
   Msg.info "Next steps:",
   Msg.info "1. Restart Claude Desktop",
   Msg.info "2. The skills will be available in the skill selector",
   Msg.info "Available skills:",
   summaryBullet "aptos-move-contract" "Move smart contract development",
   summaryBullet "aptos-ts-sdk" "Aptos TypeScript SDK integration"]

/-- The `for (const plugin of plugins)` loop of `init`: per unit, skip
with a warning when the source path is missing, otherwise remove an
existing target and recursively copy; a copy failure throws, reaching
the catch block (which logs the error) and `process.exit(1)` — the
returned flag records that fatal exit. -/
def processUnits (env : Env) (sourceDir skillsDir : Path) : List String → St → St × Bool
  | [], s => (s, false)
  | plugin :: rest, s =>
    let sourcePath := sourcePathOf sourceDir plugin
    let targetPath := targetPathOf skillsDir plugin
    if !(s.fs.pathExists sourcePath) then
      processUnits env sourceDir skillsDir rest
        { s with msgs := s.msgs ++ [Msg.warn (s!"Plugin not found: {plugin}, skipping...")] }
    else
      let s1 :=
        if s.fs.pathExists targetPath then
          { s with fs := s.fs.remove targetPath,
                   msgs := s.msgs ++ [Msg.info (s!"Updating {plugin}...")] }
        else
          { s with msgs := s.msgs ++ [Msg.info (s!"Installing {plugin}...")] }
      match env.copyFails plugin with
      | some e =>
          ({ s1 with msgs := s1.msgs ++ [Msg.error (s!"Error installing Move Skills: {e}")] }, true)
      | none =>
          processUnits env sourceDir skillsDir rest
            { fs := s1.fs.copy sourcePath targetPath,
              msgs := s1.msgs ++ [Msg.info (s!"{plugin} installed successfully")],
              installed := s1.installed ++ [plugin] }

/-- Outcome of a CLI run: final filesystem, exit code, console
transcript, and the units installed during the run. -/
structure InitResult where
  fs : FS
  exitCode : Nat
  msgs : List Msg
  installed : List String
deriving Repr

/-- The two status lines printed before the source-root check:
the banner, then the resolved target directory. -/
def startMsgs : List Msg :=
  [Msg.info "Initializing Move Skills for Claude Desktop...",
   Msg.info "Target directory resolved"]

/-- The `init` command of `cli.js`: resolve the platform destination
(exit 1 when unsupported), ensure it, check the bundled source root
(exit 1 when missing), run the unit loop, and print the success
summary when no fatal error occurred (a fatal loop exit carries the
state already reached, with exit code 1). -/
def init (env : Env) (fs0 : FS) : InitResult :=
  match CLAUDE_SKILLS_DIRS env.home env.platform with
  | none =>
      { fs := fs0, exitCode := 1,
        msgs := [Msg.info "Initializing Move Skills for Claude Desktop...",
                 Msg.error (s!"Unsupported platform: {env.platform}")],
        installed := [] }
  | some skillsDir =>
      if !((fs0.ensureDir skillsDir).pathExists (sourceRootOf env)) then
        { fs := fs0.ensureDir skillsDir, exitCode := 1,
          msgs := startMsgs ++ [Msg.error "Source directory not found"],
          installed := [] }
      else
        match processUnits env (sourceRootOf env) skillsDir plugins
            { fs := fs0.ensureDir skillsDir, msgs := startMsgs, installed := [] } with
        | (s, true) =>
            { fs := s.fs, exitCode := 1, msgs := s.msgs, installed := s.installed }
        | (s, false) =>
            { fs := s.fs, exitCode := 0, msgs := s.msgs ++ summaryMsgs,
              installed := s.installed }

/-- JavaScript falsiness of the command token: `!command` holds for
`undefined` (no argument) and for the empty string. -/
def falsy : Option String → Bool
  | none => true
  | some s => s = ""

/-- The `main` dispatcher: a switch on `process.argv[2]` with cases
`init`, `--help`, `-h`, and a default that prints a usage hint (exit 0)
when the token is falsy and an unknown-command error (exit 1)
otherwise. -/
def main (command : Option String) (env : Env) (fs0 : FS) : InitResult :=
  if command = some "init" then init env fs0
  else if command = some "--help" ∨ command = some "-h" then
    { fs := fs0, exitCode := 0,
      msgs := [Msg.info "Move Skills CLI", Msg.info "Usage:",
               Msg.info "  npx move-skills init    Install Move skills for Claude Desktop",
               Msg.info "  npx move-skills --help  Show this help message"],
      installed := [] }
  else if falsy command then
    { fs := fs0, exitCode := 0,
      msgs := [Msg.info "Move Skills CLI", Msg.info "Usage: npx move-skills init",
               Msg.info "Run npx move-skills --help for more information"],
      installed := [] }
  else
    let cmd := command.getD ""
    { fs := fs0, exitCode := 1,
      msgs := [Msg.error (s!"Unknown command: {cmd}"),
               Msg.info "Run npx move-skills --help for usage information"],
      installed := [] }


/-! ### Sample environments and filesystems used as concrete run inputs -/

/-- A Linux host whose package is installed at `/app`, with no copy
failures. -/
def envW : Env :=
  { platform := "linux", home := ["home", "u"], dirname := ["app"],
    copyFails := fun _ => none }

/-- Same host, but the recursive copy of the first unit throws. -/
def envFail1 : Env :=
  { platform := "linux", home := ["home", "u"], dirname := ["app"],
    copyFails := fun p => if p = "aptos-move-contract" then some "EACCES" else none }

/-- Same host, but the recursive copy of the second unit throws. -/
def envFail2 : Env :=
  { platform := "linux", home := ["home", "u"], dirname := ["app"],
    copyFails := fun p => if p = "aptos-ts-sdk" then some "EACCES" else none }

/-- A FreeBSD host: a platform outside the supported table. -/
def envBSD : Env :=
  { platform := "freebsd", home := ["home", "u"], dirname := ["app"],
    copyFails := fun _ => none }

/-- A filesystem with both bundled units present and a stale previous
installation (extra files) below both destination subdirectories. -/
def fsW : FS :=
  { files :=
      [(["app", "move_claude_skill", "plugins", "aptos-move-contract", "skills",
         "aptos-move-contract", "aptos", "token_vesting.move"], "module vesting"),
       (["app", "move_claude_skill", "plugins", "aptos-ts-sdk", "skills",
         "aptos-ts-sdk", "SKILL.md"], "skill doc"),
       (["home", "u", ".config", "Claude", "skills", "aptos-move-contract", "old.txt"], "stale"),
       (["home", "u", ".config", "Claude", "skills", "aptos-ts-sdk", "old2.txt"], "stale2")],
    dirs := [] }

/-- A filesystem whose package bundles only the second unit. -/
def fsMissing1 : FS :=
  { files :=
      [(["app", "move_claude_skill", "plugins", "aptos-ts-sdk", "skills",
         "aptos-ts-sdk", "SKILL.md"], "skill doc")],
    dirs := [] }

/-- A filesystem whose package bundles only the first unit. -/
def fsMissing2 : FS :=
  { files :=
      [(["app", "move_claude_skill", "plugins", "aptos-move-contract", "skills",
         "aptos-move-contract", "aptos", "token_vesting.move"], "module vesting")],
    dirs := [] }

/-- A filesystem with no bundled source root at all. -/
def fsNoRoot : FS :=
  { files := [(["etc", "hosts"], "hosts file")], dirs := [] }

/-! ### Basic facts about the prefix order on paths -/

theorem pfo_iff {a b : Path} : a.isPrefixOf b = true ↔ a <+: b :=
  List.isPrefixOf_iff_prefix

theorem pfo_refl (a : Path) : a.isPrefixOf a = true :=
  pfo_iff.mpr (List.prefix_refl a)

theorem pfo_app (a b : Path) : a.isPrefixOf (a ++ b) = true :=
  pfo_iff.mpr (List.prefix_append a b)

theorem pfo_trans {a b c : Path} (h1 : a.isPrefixOf b = true) (h2 : b.isPrefixOf c = true) :
    a.isPrefixOf c = true :=
  pfo_iff.mpr ((pfo_iff.mp h1).trans (pfo_iff.mp h2))

theorem pfo_total {a b c : Path} (h1 : a.isPrefixOf c = true) (h2 : b.isPrefixOf c = true) :
    a.isPrefixOf b = true ∨ b.isPrefixOf a = true := by
  rcases List.prefix_or_prefix_of_prefix (pfo_iff.mp h1) (pfo_iff.mp h2) with h | h
  · exact Or.inl (pfo_iff.mpr h)
  · exact Or.inr (pfo_iff.mpr h)

theorem pfo_antisymm {a b : Path} (h1 : a.isPrefixOf b = true) (h2 : b.isPrefixOf a = true) :
    a = b :=
  List.IsPrefix.eq_of_length (pfo_iff.mp h1)
    (Nat.le_antisymm (pfo_iff.mp h1).length_le (pfo_iff.mp h2).length_le)

theorem pfo_snoc {a b : Path} {x : String} (h : a.isPrefixOf (b ++ [x]) = true) :
    a.isPrefixOf b = true ∨ a = b ++ [x] := by
  have h2 := pfo_iff.mp h
  rcases Nat.lt_or_ge a.length (b ++ [x]).length with hl | hl
  · left
    apply pfo_iff.mpr
    have hab : a.length ≤ b.length := by
      simpa using Nat.lt_succ_iff.mp (by simpa using hl)
    exact List.prefix_of_prefix_length_le h2 (List.prefix_append b [x]) hab
  · right
    exact List.IsPrefix.eq_of_length h2 (Nat.le_antisymm h2.length_le hl)

/-- Incomparability of `a` and `b` extends to any extension of `b`. -/
theorem incomp_app {a b : Path} (c : Path) (hA : a.isPrefixOf b = false) (hB : b.isPrefixOf a = false) :
    a.isPrefixOf (b ++ c) = false ∧ (b ++ c).isPrefixOf a = false := by
  constructor
  · cases hp : a.isPrefixOf (b ++ c) with
    | false => rfl
    | true =>
      exfalso
      rcases pfo_total hp (pfo_app b c) with h | h
      · rw [h] at hA; cases hA
      · rw [h] at hB; cases hB
  · cases hp : (b ++ c).isPrefixOf a with
    | false => rfl
    | true =>
      exfalso
      have : b.isPrefixOf a = true := pfo_trans (pfo_app b c) hp
      rw [this] at hB; cases hB

/-- Two incomparable paths dominate disjoint regions. -/
theorem no_common_below {t q : Path} (hA : t.isPrefixOf q = false) (hB : q.isPrefixOf t = false) :
    ∀ r : Path, t.isPrefixOf r = true → q.isPrefixOf r = true → False := by
  intro r h1 h2
  rcases pfo_total h1 h2 with h | h
  · rw [h] at hA; cases hA
  · rw [h] at hB; cases hB

/-- Distinct children of the same directory are incomparable. -/
theorem sib_incomp {sd : Path} {a b : String} (hab : a ≠ b) :
    (sd ++ [a]).isPrefixOf (sd ++ [b]) = false := by
  cases hp : (sd ++ [a]).isPrefixOf (sd ++ [b]) with
  | false => rfl
  | true =>
    exfalso
    have he : sd ++ [a] = sd ++ [b] := by
      apply List.IsPrefix.eq_of_length (pfo_iff.mp hp)
      simp
    exact hab (by simpa using List.append_cancel_left he)

/-! ### Generic list lemmas used for the filesystem algebra -/

theorem any_filter_eq {α : Type} (l : List α) (p q : α → Bool)
    (h : ∀ a ∈ l, q a = true → p a = true) :
    (l.filter p).any q = l.any q := by
  rw [Bool.eq_iff_iff, List.any_eq_true, List.any_eq_true]
  constructor
  · rintro ⟨a, ha, hq⟩
    exact ⟨a, (List.mem_filter.mp ha).1, hq⟩
  · rintro ⟨a, ha, hq⟩
    exact ⟨a, List.mem_filter.mpr ⟨ha, h a ha hq⟩, hq⟩

theorem any_append_eq {α : Type} (l m : List α) (q : α → Bool)
    (h : ∀ a ∈ m, q a = false) : (l ++ m).any q = l.any q := by
  rw [List.any_append]
  have : m.any q = false := by
    rw [List.any_eq_false]
    intro a ha
    simp [h a ha]
  rw [this, Bool.or_false]

theorem filter_sub_eq {α : Type} (l : List α) (p q : α → Bool)
    (h : ∀ a ∈ l, q a = true → p a = true) :
    (l.filter p).filter q = l.filter q := by
  rw [List.filter_filter]
  apply List.filter_congr
  intro a ha
  cases hq : q a with
  | false => simp
  | true => simp [h a ha hq]

theorem filter_self_eq {α : Type} (l : List α) (p : α → Bool) :
    (l.filter p).filter p = l.filter p :=
  List.filter_eq_self.mpr (fun a ha => (List.mem_filter.mp ha).2)

theorem filter_comm_eq {α : Type} (l : List α) (p q : α → Bool) :
    (l.filter p).filter q = (l.filter q).filter p := by
  rw [List.filter_filter, List.filter_filter]
  exact List.filter_congr (fun a _ => Bool.and_comm (q a) (p a))

theorem filter_none_eq {α : Type} (l : List α) (p : α → Bool)
    (h : ∀ a ∈ l, p a = false) : l.filter p = [] := by
  rw [List.filter_eq_nil_iff]
  intro a ha
  simp [h a ha]

theorem filter_all_eq {α : Type} (l : List α) (p : α → Bool)
    (h : ∀ a ∈ l, p a = true) : l.filter p = l :=
  List.filter_eq_self.mpr h

/-! ### Facts about the embedded filesystem operations -/

theorem ensureDir_files (fs : FS) (p : Path) : (fs.ensureDir p).files = fs.files := by
  unfold FS.ensureDir
  split <;> rfl

theorem filesUnder_ensureDir (fs : FS) (p q : Path) :
    (fs.ensureDir p).filesUnder q = fs.filesUnder q := by
  unfold FS.filesUnder
  rw [ensureDir_files]

theorem ensureDir_of_exists {fs : FS} {p : Path} (h : fs.pathExists p = true) :
    fs.ensureDir p = fs := by
  unfold FS.ensureDir
  rw [h]
  rfl

theorem pathExists_ensureDir_true {fs : FS} {p q : Path} (h : fs.pathExists q = true) :
    (fs.ensureDir p).pathExists q = true := by
  unfold FS.ensureDir
  split
  · exact h
  · unfold FS.pathExists at h ⊢
    rcases Bool.or_eq_true_iff.mp h with hd | hf
    · apply Bool.or_eq_true_iff.mpr
      left
      rw [List.any_append]
      rw [hd]
      rfl
    · apply Bool.or_eq_true_iff.mpr
      right
      exact hf

theorem pathExists_ensureDir_eq {fs : FS} {p q : Path} (h : q.isPrefixOf p = false) :
    (fs.ensureDir p).pathExists q = fs.pathExists q := by
  unfold FS.ensureDir
  split
  · rfl
  · unfold FS.pathExists
    have : ((fs.dirs ++ [p]).any fun d => q.isPrefixOf d) = fs.dirs.any fun d => q.isPrefixOf d := by
      apply any_append_eq
      intro a ha
      have : a = p := by simpa using ha
      rw [this]
      exact h
    rw [this]

theorem remove_of_not_exists {fs : FS} {t : Path} (h : fs.pathExists t = false) :
    fs.remove t = fs := by
  unfold FS.pathExists at h
  rcases Bool.or_eq_false_iff.mp h with ⟨hd, hf⟩
  rw [List.any_eq_false] at hd hf
  unfold FS.remove
  have h1 : fs.files.filter (fun f => !(t.isPrefixOf f.1)) = fs.files := by
    apply filter_all_eq
    intro f hfm
    have := hf f hfm
    simp only [Bool.not_eq_true] at this
    simp [this]
  have h2 : fs.dirs.filter (fun d => !(t.isPrefixOf d)) = fs.dirs := by
    apply filter_all_eq
    intro d hdm
    have := hd d hdm
    simp only [Bool.not_eq_true] at this
    simp [this]
  rw [h1, h2]

theorem remove_clean (fs : FS) (t : Path) :
    ∀ f ∈ (fs.remove t).files, t.isPrefixOf f.1 = false := by
  intro f hf
  have := (List.mem_filter.mp hf).2
  simpa using this

theorem pathExists_remove_self (fs : FS) (t : Path) :
    (fs.remove t).pathExists t = false := by
  unfold FS.remove FS.pathExists
  apply Bool.or_eq_false_iff.mpr
  constructor
  · rw [List.any_eq_false]
    intro d hd
    have h2 := (List.mem_filter.mp hd).2
    simp only [Bool.not_eq_eq_eq_not, Bool.not_true] at h2
    simp [h2]
  · rw [List.any_eq_false]
    intro f hf
    have h2 := (List.mem_filter.mp hf).2
    simp only [Bool.not_eq_eq_eq_not, Bool.not_true] at h2
    simp [h2]

theorem pathExists_remove_eq {fs : FS} {t q : Path}
    (h : ∀ r : Path, t.isPrefixOf r = true → q.isPrefixOf r = true → False) :
    (fs.remove t).pathExists q = fs.pathExists q := by
  unfold FS.remove FS.pathExists
  simp only
  rw [any_filter_eq, any_filter_eq]
  · intro f _ hq
    cases ht : t.isPrefixOf f.1 with
    | false => simp [ht]
    | true => exact absurd (h f.1 ht hq) (fun hh => hh)
  · intro d _ hq
    cases ht : t.isPrefixOf d with
    | false => simp [ht]
    | true => exact absurd (h d ht hq) (fun hh => hh)

theorem pathExists_copy_eq {fs : FS} {src dst q : Path}
    (h : ∀ r : Path, dst.isPrefixOf r = true → q.isPrefixOf r = true → False) :
    (fs.copy src dst).pathExists q = fs.pathExists q := by
  unfold FS.copy FS.pathExists
  simp only
  rw [any_append_eq, any_append_eq]
  · intro f hf
    rcases List.mem_map.mp hf with ⟨g, _, hg⟩
    cases hq : q.isPrefixOf f.1 with
    | false => rfl
    | true =>
      exfalso
      apply h f.1 _ hq
      rw [← hg]
      exact pfo_app dst _
  · intro d hd
    cases hq : q.isPrefixOf d with
    | false => rfl
    | true =>
      exfalso
      apply h d _ hq
      rcases List.mem_cons.mp hd with he | hm
      · rw [he]
        exact pfo_refl dst
      · rcases List.mem_map.mp hm with ⟨g, _, hg⟩
        rw [← hg]
        exact pfo_app dst _

theorem pathExists_copy_dst {fs : FS} {src dst q : Path} (h : q.isPrefixOf dst = true) :
    (fs.copy src dst).pathExists q = true := by
  unfold FS.copy FS.pathExists
  apply Bool.or_eq_true_iff.mpr
  left
  rw [List.any_eq_true]
  exact ⟨dst, by simp, h⟩

theorem filesUnder_remove_eq {fs : FS} {t q : Path}
    (h : ∀ r : Path, t.isPrefixOf r = true → q.isPrefixOf r = true → False) :
    (fs.remove t).filesUnder q = fs.filesUnder q := by
  unfold FS.remove FS.filesUnder
  simp only
  rw [filter_sub_eq]
  intro f _ hq
  cases ht : t.isPrefixOf f.1 with
  | false => simp [ht]
  | true => exact absurd (h f.1 ht hq) (fun hh => hh)

theorem filesUnder_copy_eq {fs : FS} {src dst q : Path}
    (h : ∀ r : Path, dst.isPrefixOf r = true → q.isPrefixOf r = true → False) :
    (fs.copy src dst).filesUnder q = fs.filesUnder q := by
  unfold FS.copy FS.filesUnder
  simp only
  rw [List.filter_append]
  have : ((fs.files.filter (fun f => src.isPrefixOf f.1)).map
      (fun f => (dst ++ f.1.drop src.length, f.2))).filter (fun f => q.isPrefixOf f.1) = [] := by
    apply filter_none_eq
    intro f hf
    rcases List.mem_map.mp hf with ⟨g, _, hg⟩
    cases hq : q.isPrefixOf f.1 with
    | false => rfl
    | true =>
      exfalso
      apply h f.1 _ hq
      rw [← hg]
      exact pfo_app dst _
  rw [this, List.append_nil]

theorem filesUnder_copy_self {fs : FS} {src dst : Path}
    (hclean : ∀ f ∈ fs.files, dst.isPrefixOf f.1 = false) :
    (fs.copy src dst).filesUnder dst = fs.filesUnder src := by
  unfold FS.copy FS.filesUnder
  simp only
  rw [List.filter_append]
  have h1 : fs.files.filter (fun f => dst.isPrefixOf f.1) = [] :=
    filter_none_eq _ _ hclean
  have h2 : ((fs.files.filter (fun f => src.isPrefixOf f.1)).map
      (fun f => (dst ++ f.1.drop src.length, f.2))).filter (fun f => dst.isPrefixOf f.1) =
      (fs.files.filter (fun f => src.isPrefixOf f.1)).map
      (fun f => (dst ++ f.1.drop src.length, f.2)) := by
    apply filter_all_eq
    intro f hf
    rcases List.mem_map.mp hf with ⟨g, _, hg⟩
    rw [← hg]
    exact pfo_app dst _
  rw [h1, h2, List.nil_append, List.map_map]
  apply List.map_congr_left
  intro f _
  simp [List.drop_left]

/-! ### Algebra of remove and copy -/

theorem copy_remove_self (fs : FS) (src dst : Path) :
    (fs.copy src dst).remove dst = fs.remove dst := by
  unfold FS.copy FS.remove
  simp only
  congr 1
  · rw [List.filter_append]
    have : ((fs.files.filter (fun f => src.isPrefixOf f.1)).map
        (fun f => (dst ++ f.1.drop src.length, f.2))).filter (fun f => !(dst.isPrefixOf f.1)) = [] := by
      apply filter_none_eq
      intro f hf
      rcases List.mem_map.mp hf with ⟨g, _, hg⟩
      have : dst.isPrefixOf f.1 = true := by
        rw [← hg]
        exact pfo_app dst _
      simp [this]
    rw [this, List.append_nil]
  · rw [List.filter_append]
    have : (dst :: (fs.dirs.filter (fun d => src.isPrefixOf d)).map
        (fun d => dst ++ d.drop src.length)).filter (fun d => !(dst.isPrefixOf d)) = [] := by
      apply filter_none_eq
      intro d hd
      rcases List.mem_cons.mp hd with he | hm
      · have : dst.isPrefixOf d = true := by rw [he]; exact pfo_refl dst
        simp [this]
      · rcases List.mem_map.mp hm with ⟨g, _, hg⟩
        have : dst.isPrefixOf d = true := by rw [← hg]; exact pfo_app dst _
        simp [this]
    rw [this, List.append_nil]

theorem remove_remove_self (fs : FS) (t : Path) :
    (fs.remove t).remove t = fs.remove t := by
  unfold FS.remove
  simp only
  congr 1
  · exact filter_self_eq _ _
  · exact filter_self_eq _ _

theorem remove_comm (fs : FS) (a b : Path) :
    (fs.remove a).remove b = (fs.remove b).remove a := by
  unfold FS.remove
  simp only
  congr 1
  · exact filter_comm_eq _ _ _
  · exact filter_comm_eq _ _ _

theorem remove_copy_comm {fs : FS} {src dst t : Path}
    (hd : ∀ r : Path, t.isPrefixOf r = true → dst.isPrefixOf r = true → False)
    (hs : ∀ r : Path, t.isPrefixOf r = true → src.isPrefixOf r = true → False) :
    (fs.copy src dst).remove t = (fs.remove t).copy src dst := by
  have hnt : ∀ r : Path, dst.isPrefixOf r = true → (!(t.isPrefixOf r)) = true := by
    intro r hr
    cases ht : t.isPrefixOf r with
    | false => simp
    | true => exact absurd (hd r ht hr) (fun x => x)
  unfold FS.copy FS.remove
  simp only
  congr 1
  · rw [List.filter_append]
    have hM : ((fs.files.filter (fun f => src.isPrefixOf f.1)).map
        (fun f => (dst ++ f.1.drop src.length, f.2))).filter (fun f => !(t.isPrefixOf f.1)) =
        (fs.files.filter (fun f => src.isPrefixOf f.1)).map
        (fun f => (dst ++ f.1.drop src.length, f.2)) := by
      apply filter_all_eq
      intro f hf
      rcases List.mem_map.mp hf with ⟨g, _, hg⟩
      apply hnt
      rw [← hg]
      exact pfo_app dst _
    have hsb : (fs.files.filter (fun f => !(t.isPrefixOf f.1))).filter (fun f => src.isPrefixOf f.1) =
        fs.files.filter (fun f => src.isPrefixOf f.1) := by
      apply filter_sub_eq
      intro f _ hq
      cases ht : t.isPrefixOf f.1 with
      | false => simp
      | true => exact absurd (hs f.1 ht hq) (fun x => x)
    rw [hM, hsb]
  · rw [List.filter_append]
    have hc : (dst :: (fs.dirs.filter (fun d => src.isPrefixOf d)).map
        (fun d => dst ++ d.drop src.length)).filter (fun d => !(t.isPrefixOf d)) =
        dst :: (fs.dirs.filter (fun d => src.isPrefixOf d)).map (fun d => dst ++ d.drop src.length) := by
      apply filter_all_eq
      intro d hdm
      rcases List.mem_cons.mp hdm with he | hm
      · apply hnt
        rw [he]
        exact pfo_refl dst
      · rcases List.mem_map.mp hm with ⟨g, _, hg⟩
        apply hnt
        rw [← hg]
        exact pfo_app dst _
    have hsb : (fs.dirs.filter (fun d => !(t.isPrefixOf d))).filter (fun d => src.isPrefixOf d) =
        fs.dirs.filter (fun d => src.isPrefixOf d) := by
      apply filter_sub_eq
      intro d _ hq
      cases ht : t.isPrefixOf d with
      | false => simp
      | true => exact absurd (hs d ht hq) (fun x => x)
    rw [hc, hsb]

/-! ### Disjointness of the regions touched by the installer -/

theorem reg_t_sr {sd sr : Path} (hra : sd.isPrefixOf sr = false) (hrb : sr.isPrefixOf sd = false)
    (x : String) :
    ∀ r : Path, (sd ++ [x]).isPrefixOf r = true → sr.isPrefixOf r = true → False := by
  have h1 : sr.isPrefixOf (sd ++ [x]) = false := (incomp_app [x] hrb hra).1
  have h2 : (sd ++ [x]).isPrefixOf sr = false := (incomp_app [x] hrb hra).2
  exact no_common_below h2 h1

theorem reg_t_sp {sd sr : Path} (hra : sd.isPrefixOf sr = false) (hrb : sr.isPrefixOf sd = false)
    (x : String) (tail : List String) :
    ∀ r : Path, (sd ++ [x]).isPrefixOf r = true → (sr ++ tail).isPrefixOf r = true → False := by
  have h1 : sd.isPrefixOf (sr ++ tail) = false := (incomp_app tail hra hrb).1
  have h2 : (sr ++ tail).isPrefixOf sd = false := (incomp_app tail hra hrb).2
  have h3 : (sr ++ tail).isPrefixOf (sd ++ [x]) = false := (incomp_app [x] h2 h1).1
  have h4 : (sd ++ [x]).isPrefixOf (sr ++ tail) = false := (incomp_app [x] h2 h1).2
  exact no_common_below h4 h3

theorem reg_t_t {sd : Path} {a b : String} (hab : a ≠ b) :
    ∀ r : Path, (sd ++ [a]).isPrefixOf r = true → (sd ++ [b]).isPrefixOf r = true → False :=
  no_common_below (sib_incomp hab) (sib_incomp (fun h => hab h.symm))

/-! ### Unfolding equations for the unit loop -/

theorem pu_nil (env : Env) (sd sk : Path) (s : St) :
    processUnits env sd sk [] s = (s, false) := rfl

theorem pu_cons_skip (env : Env) (sd sk : Path) (p : String) (rest : List String)
    (f : FS) (ms : List Msg) (il : List String)
    (h1 : f.pathExists (sourcePathOf sd p) = false) :
    processUnits env sd sk (p :: rest) ⟨f, ms, il⟩ =
      processUnits env sd sk rest
        ⟨f, ms ++ [Msg.warn (s!"Plugin not found: {p}, skipping...")], il⟩ := by
  simp only [processUnits, h1, Bool.not_false, if_true]

theorem pu_cons_ok (env : Env) (sd sk : Path) (p : String) (rest : List String)
    (f : FS) (ms : List Msg) (il : List String)
    (h1 : f.pathExists (sourcePathOf sd p) = true)
    (hc : env.copyFails p = none) :
    ∃ t : String,
      processUnits env sd sk (p :: rest) ⟨f, ms, il⟩ =
        processUnits env sd sk rest
          ⟨(f.remove (targetPathOf sk p)).copy (sourcePathOf sd p) (targetPathOf sk p),
           ms ++ [Msg.info t, Msg.info (s!"{p} installed successfully")],
           il ++ [p]⟩ := by
  cases ht : f.pathExists (targetPathOf sk p) with
  | true =>
    refine ⟨s!"Updating {p}...", ?_⟩
    simp only [processUnits, h1, Bool.not_true, ht, if_true, hc, List.append_assoc,
      List.cons_append, List.nil_append, Bool.false_eq_true, if_false]
  | false =>
    refine ⟨s!"Installing {p}...", ?_⟩
    simp only [processUnits, h1, Bool.not_true, ht, hc, List.append_assoc,
      List.cons_append, List.nil_append, Bool.false_eq_true, if_false]
    rw [remove_of_not_exists ht]

theorem pu_cons_fail (env : Env) (sd sk : Path) (p : String) (rest : List String)
    (f : FS) (ms : List Msg) (il : List String) (e : String)
    (h1 : f.pathExists (sourcePathOf sd p) = true)
    (hc : env.copyFails p = some e) :
    ∃ t : String,
      processUnits env sd sk (p :: rest) ⟨f, ms, il⟩ =
        (⟨f.remove (targetPathOf sk p),
          ms ++ [Msg.info t, Msg.error (s!"Error installing Move Skills: {e}")],
          il⟩, true) := by
  cases ht : f.pathExists (targetPathOf sk p) with
  | true =>
    refine ⟨s!"Updating {p}...", ?_⟩
    simp only [processUnits, h1, Bool.not_true, ht, if_true, hc, List.append_assoc,
      List.cons_append, List.nil_append, Bool.false_eq_true, if_false]
  | false =>
    refine ⟨s!"Installing {p}...", ?_⟩
    simp only [processUnits, h1, Bool.not_true, ht, hc, List.append_assoc,
      List.cons_append, List.nil_append, Bool.false_eq_true, if_false]
    rw [remove_of_not_exists ht]

/-! ### Characterization of full runs of init -/

theorem init_char_ok (env : Env) (fs0 : FS) (sd : Path)
    (hplat : CLAUDE_SKILLS_DIRS env.home env.platform = some sd)
    (hra : sd.isPrefixOf (sourceRootOf env) = false)
    (hrb : (sourceRootOf env).isPrefixOf sd = false)
    (hroot : fs0.pathExists (sourceRootOf env) = true)
    (h1 : fs0.pathExists (sourcePathOf (sourceRootOf env) "aptos-move-contract") = true)
    (h2 : fs0.pathExists (sourcePathOf (sourceRootOf env) "aptos-ts-sdk") = true)
    (hc1 : env.copyFails "aptos-move-contract" = none)
    (hc2 : env.copyFails "aptos-ts-sdk" = none) :
    ∃ ms : List Msg,
      init env fs0 =
        { fs := ((((fs0.ensureDir sd).remove (targetPathOf sd "aptos-move-contract")).copy
              (sourcePathOf (sourceRootOf env) "aptos-move-contract")
              (targetPathOf sd "aptos-move-contract")).remove
              (targetPathOf sd "aptos-ts-sdk")).copy
              (sourcePathOf (sourceRootOf env) "aptos-ts-sdk")
              (targetPathOf sd "aptos-ts-sdk"),
          exitCode := 0, msgs := ms,
          installed := ["aptos-move-contract", "aptos-ts-sdk"] } := by
  have e0 : (fs0.ensureDir sd).pathExists (sourceRootOf env) = true :=
    pathExists_ensureDir_true hroot
  have e1 : (fs0.ensureDir sd).pathExists (sourcePathOf (sourceRootOf env) "aptos-move-contract") = true :=
    pathExists_ensureDir_true h1
  rcases pu_cons_ok env (sourceRootOf env) sd "aptos-move-contract" ["aptos-ts-sdk"]
      (fs0.ensureDir sd) startMsgs [] e1 hc1 with ⟨m1, hs1⟩
  have e2 : (((fs0.ensureDir sd).remove (targetPathOf sd "aptos-move-contract")).copy
      (sourcePathOf (sourceRootOf env) "aptos-move-contract")
      (targetPathOf sd "aptos-move-contract")).pathExists
      (sourcePathOf (sourceRootOf env) "aptos-ts-sdk") = true := by
    simp only [targetPathOf, sourcePathOf]
    rw [pathExists_copy_eq
          (reg_t_sp hra hrb "aptos-move-contract" ["aptos-ts-sdk", "skills", "aptos-ts-sdk"]),
        pathExists_remove_eq
          (reg_t_sp hra hrb "aptos-move-contract" ["aptos-ts-sdk", "skills", "aptos-ts-sdk"])]
    exact pathExists_ensureDir_true h2
  rcases pu_cons_ok env (sourceRootOf env) sd "aptos-ts-sdk" []
      (((fs0.ensureDir sd).remove (targetPathOf sd "aptos-move-contract")).copy
        (sourcePathOf (sourceRootOf env) "aptos-move-contract")
        (targetPathOf sd "aptos-move-contract"))
      _ _ e2 hc2 with ⟨m2, hs2⟩
  refine ⟨?_, ?_⟩
  rotate_left
  unfold init
  rw [hplat]
  simp only [e0, Bool.not_true, Bool.false_eq_true, if_false, plugins]
  rw [hs1, hs2, pu_nil]
  exact rfl

theorem init_char_skip1 (env : Env) (fs0 : FS) (sd : Path)
    (hplat : CLAUDE_SKILLS_DIRS env.home env.platform = some sd)
    (hra : sd.isPrefixOf (sourceRootOf env) = false)
    (hrb : (sourceRootOf env).isPrefixOf sd = false)
    (hroot : fs0.pathExists (sourceRootOf env) = true)
    (hm1 : fs0.pathExists (sourcePathOf (sourceRootOf env) "aptos-move-contract") = false)
    (h2 : fs0.pathExists (sourcePathOf (sourceRootOf env) "aptos-ts-sdk") = true)
    (hc2 : env.copyFails "aptos-ts-sdk" = none) :
    ∃ ms : List Msg,
      init env fs0 =
        { fs := ((fs0.ensureDir sd).remove (targetPathOf sd "aptos-ts-sdk")).copy
              (sourcePathOf (sourceRootOf env) "aptos-ts-sdk") (targetPathOf sd "aptos-ts-sdk"),
          exitCode := 0, msgs := ms, installed := ["aptos-ts-sdk"] }
      ∧ ms.countP Msg.isWarn = 1 := by
  have e0 : (fs0.ensureDir sd).pathExists (sourceRootOf env) = true :=
    pathExists_ensureDir_true hroot
  have hq1 : (sourcePathOf (sourceRootOf env) "aptos-move-contract").isPrefixOf sd = false :=
    (incomp_app ["aptos-move-contract", "skills", "aptos-move-contract"] hra hrb).2
  have e1f : (fs0.ensureDir sd).pathExists
      (sourcePathOf (sourceRootOf env) "aptos-move-contract") = false := by
    rw [pathExists_ensureDir_eq hq1]
    exact hm1
  have hstep1 := pu_cons_skip env (sourceRootOf env) sd "aptos-move-contract" ["aptos-ts-sdk"]
    (fs0.ensureDir sd) startMsgs [] e1f
  have e2 : (fs0.ensureDir sd).pathExists
      (sourcePathOf (sourceRootOf env) "aptos-ts-sdk") = true :=
    pathExists_ensureDir_true h2
  rcases pu_cons_ok env (sourceRootOf env) sd "aptos-ts-sdk" []
      (fs0.ensureDir sd) _ _ e2 hc2 with ⟨m2, hstep2⟩
  refine ⟨?_, ?_, ?_⟩
  rotate_left
  · unfold init
    rw [hplat]
    simp only [e0, Bool.not_true, Bool.false_eq_true, if_false, plugins]
    rw [hstep1, hstep2, pu_nil]
    exact rfl
  · simp [startMsgs, summaryMsgs, summaryBullet, List.countP_append, List.countP_cons, Msg.isWarn]

theorem init_char_skip2 (env : Env) (fs0 : FS) (sd : Path)
    (hplat : CLAUDE_SKILLS_DIRS env.home env.platform = some sd)
    (hra : sd.isPrefixOf (sourceRootOf env) = false)
    (hrb : (sourceRootOf env).isPrefixOf sd = false)
    (hroot : fs0.pathExists (sourceRootOf env) = true)
    (h1 : fs0.pathExists (sourcePathOf (sourceRootOf env) "aptos-move-contract") = true)
    (hm2 : fs0.pathExists (sourcePathOf (sourceRootOf env) "aptos-ts-sdk") = false)
    (hc1 : env.copyFails "aptos-move-contract" = none) :
    ∃ ms : List Msg,
      init env fs0 =
        { fs := ((fs0.ensureDir sd).remove (targetPathOf sd "aptos-move-contract")).copy
              (sourcePathOf (sourceRootOf env) "aptos-move-contract")
              (targetPathOf sd "aptos-move-contract"),
          exitCode := 0, msgs := ms, installed := ["aptos-move-contract"] }
      ∧ ms.countP Msg.isWarn = 1 := by
  have e0 : (fs0.ensureDir sd).pathExists (sourceRootOf env) = true :=
    pathExists_ensureDir_true hroot
  have e1 : (fs0.ensureDir sd).pathExists
      (sourcePathOf (sourceRootOf env) "aptos-move-contract") = true :=
    pathExists_ensureDir_true h1
  rcases pu_cons_ok env (sourceRootOf env) sd "aptos-move-contract" ["aptos-ts-sdk"]
      (fs0.ensureDir sd) startMsgs [] e1 hc1 with ⟨m1, hstep1⟩
  have r12 : ∀ r : Path, (targetPathOf sd "aptos-move-contract").isPrefixOf r = true →
      (sourcePathOf (sourceRootOf env) "aptos-ts-sdk").isPrefixOf r = true → False :=
    reg_t_sp hra hrb "aptos-move-contract" ["aptos-ts-sdk", "skills", "aptos-ts-sdk"]
  have hq2 : (sourcePathOf (sourceRootOf env) "aptos-ts-sdk").isPrefixOf sd = false :=
    (incomp_app ["aptos-ts-sdk", "skills", "aptos-ts-sdk"] hra hrb).2
  have e2f : (((fs0.ensureDir sd).remove (targetPathOf sd "aptos-move-contract")).copy
      (sourcePathOf (sourceRootOf env) "aptos-move-contract")
      (targetPathOf sd "aptos-move-contract")).pathExists
      (sourcePathOf (sourceRootOf env) "aptos-ts-sdk") = false := by
    rw [pathExists_copy_eq r12, pathExists_remove_eq r12, pathExists_ensureDir_eq hq2]
    exact hm2
  have hstep2 := pu_cons_skip env (sourceRootOf env) sd "aptos-ts-sdk" []
    (((fs0.ensureDir sd).remove (targetPathOf sd "aptos-move-contract")).copy
      (sourcePathOf (sourceRootOf env) "aptos-move-contract")
      (targetPathOf sd "aptos-move-contract"))
    (startMsgs ++ [Msg.info m1, Msg.info (toString "" ++ toString "aptos-move-contract" ++
      toString " installed successfully")])
    ([] ++ ["aptos-move-contract"]) e2f
  refine ⟨?_, ?_, ?_⟩
  rotate_left
  · unfold init
    rw [hplat]
    simp only [e0, Bool.not_true, Bool.false_eq_true, if_false, plugins]
    rw [hstep1, hstep2, pu_nil]
    exact rfl
  · simp [startMsgs, summaryMsgs, summaryBullet, List.countP_append, List.countP_cons, Msg.isWarn]

theorem init_char_fail2 (env : Env) (fs0 : FS) (sd : Path) (e : String)
    (hplat : CLAUDE_SKILLS_DIRS env.home env.platform = some sd)
    (hra : sd.isPrefixOf (sourceRootOf env) = false)
    (hrb : (sourceRootOf env).isPrefixOf sd = false)
    (hroot : fs0.pathExists (sourceRootOf env) = true)
    (h1 : fs0.pathExists (sourcePathOf (sourceRootOf env) "aptos-move-contract") = true)
    (h2 : fs0.pathExists (sourcePathOf (sourceRootOf env) "aptos-ts-sdk") = true)
    (hc1 : env.copyFails "aptos-move-contract" = none)
    (hc2 : env.copyFails "aptos-ts-sdk" = some e) :
    ∃ ms : List Msg,
      init env fs0 =
        { fs := (((fs0.ensureDir sd).remove (targetPathOf sd "aptos-move-contract")).copy
              (sourcePathOf (sourceRootOf env) "aptos-move-contract")
              (targetPathOf sd "aptos-move-contract")).remove (targetPathOf sd "aptos-ts-sdk"),
          exitCode := 1, msgs := ms, installed := ["aptos-move-contract"] }
      ∧ Msg.error (s!"Error installing Move Skills: {e}") ∈ ms := by
  have e0 : (fs0.ensureDir sd).pathExists (sourceRootOf env) = true :=
    pathExists_ensureDir_true hroot
  have e1 : (fs0.ensureDir sd).pathExists
      (sourcePathOf (sourceRootOf env) "aptos-move-contract") = true :=
    pathExists_ensureDir_true h1
  rcases pu_cons_ok env (sourceRootOf env) sd "aptos-move-contract" ["aptos-ts-sdk"]
      (fs0.ensureDir sd) startMsgs [] e1 hc1 with ⟨m1, hstep1⟩
  have r12 : ∀ r : Path, (targetPathOf sd "aptos-move-contract").isPrefixOf r = true →
      (sourcePathOf (sourceRootOf env) "aptos-ts-sdk").isPrefixOf r = true → False :=
    reg_t_sp hra hrb "aptos-move-contract" ["aptos-ts-sdk", "skills", "aptos-ts-sdk"]
  have e2 : (((fs0.ensureDir sd).remove (targetPathOf sd "aptos-move-contract")).copy
      (sourcePathOf (sourceRootOf env) "aptos-move-contract")
      (targetPathOf sd "aptos-move-contract")).pathExists
      (sourcePathOf (sourceRootOf env) "aptos-ts-sdk") = true := by
    rw [pathExists_copy_eq r12, pathExists_remove_eq r12]
    exact pathExists_ensureDir_true h2
  rcases pu_cons_fail env (sourceRootOf env) sd "aptos-ts-sdk" []
      (((fs0.ensureDir sd).remove (targetPathOf sd "aptos-move-contract")).copy
        (sourcePathOf (sourceRootOf env) "aptos-move-contract")
        (targetPathOf sd "aptos-move-contract"))
      _ _ e e2 hc2 with ⟨m2, hstep2⟩
  refine ⟨?_, ?_, ?_⟩
  rotate_left
  · unfold init
    rw [hplat]
    simp only [e0, Bool.not_true, Bool.false_eq_true, if_false, plugins]
    rw [hstep1, hstep2]
    exact rfl
  · simp

theorem init_char_fail1 (env : Env) (fs0 : FS) (sd : Path) (e : String)
    (hplat : CLAUDE_SKILLS_DIRS env.home env.platform = some sd)
    (hroot : fs0.pathExists (sourceRootOf env) = true)
    (h1 : fs0.pathExists (sourcePathOf (sourceRootOf env) "aptos-move-contract") = true)
    (hc1 : env.copyFails "aptos-move-contract" = some e) :
    ∃ ms : List Msg,
      init env fs0 =
        { fs := (fs0.ensureDir sd).remove (targetPathOf sd "aptos-move-contract"),
          exitCode := 1, msgs := ms, installed := [] } := by
  have e0 : (fs0.ensureDir sd).pathExists (sourceRootOf env) = true :=
    pathExists_ensureDir_true hroot
  have e1 : (fs0.ensureDir sd).pathExists
      (sourcePathOf (sourceRootOf env) "aptos-move-contract") = true :=
    pathExists_ensureDir_true h1
  rcases pu_cons_fail env (sourceRootOf env) sd "aptos-move-contract" ["aptos-ts-sdk"]
      (fs0.ensureDir sd) startMsgs [] e e1 hc1 with ⟨m1, hstep1⟩
  refine ⟨?_, ?_⟩
  rotate_left
  unfold init
  rw [hplat]
  simp only [e0, Bool.not_true, Bool.false_eq_true, if_false, plugins]
  rw [hstep1]
  exact rfl

/-! ### Frame property: the unit loop only writes below the destination -/

theorem frame_remove_tp (fs : FS) (sk : Path) (p : String) :
    ((fs.remove (targetPathOf sk p)).files.filter (fun f => !(sk.isPrefixOf f.1)) =
      fs.files.filter (fun f => !(sk.isPrefixOf f.1))) ∧
    ((fs.remove (targetPathOf sk p)).dirs.filter (fun d => !(sk.isPrefixOf d)) =
      fs.dirs.filter (fun d => !(sk.isPrefixOf d))) := by
  unfold FS.remove
  constructor
  · apply filter_sub_eq
    intro f _ hq
    cases htp : (targetPathOf sk p).isPrefixOf f.1 with
    | false => simp
    | true =>
      have hsk : sk.isPrefixOf f.1 = true := pfo_trans (pfo_app sk [p]) htp
      rw [hsk] at hq
      cases hq
  · apply filter_sub_eq
    intro d _ hq
    cases htp : (targetPathOf sk p).isPrefixOf d with
    | false => simp
    | true =>
      have hsk : sk.isPrefixOf d = true := pfo_trans (pfo_app sk [p]) htp
      rw [hsk] at hq
      cases hq

theorem frame_copy_tp (fs : FS) (sk : Path) (p : String) (src : Path) :
    ((fs.copy src (targetPathOf sk p)).files.filter (fun f => !(sk.isPrefixOf f.1)) =
      fs.files.filter (fun f => !(sk.isPrefixOf f.1))) ∧
    ((fs.copy src (targetPathOf sk p)).dirs.filter (fun d => !(sk.isPrefixOf d)) =
      fs.dirs.filter (fun d => !(sk.isPrefixOf d))) := by
  unfold FS.copy
  constructor
  · rw [List.filter_append]
    have hnil : ((fs.files.filter (fun f => src.isPrefixOf f.1)).map
        (fun f => (targetPathOf sk p ++ f.1.drop src.length, f.2))).filter
        (fun f => !(sk.isPrefixOf f.1)) = [] := by
      apply filter_none_eq
      intro f hf
      rcases List.mem_map.mp hf with ⟨g, _, hg⟩
      have hsk : sk.isPrefixOf f.1 = true := by
        rw [← hg]
        exact pfo_trans (pfo_app sk [p]) (pfo_app (targetPathOf sk p) _)
      simp [hsk]
    rw [hnil, List.append_nil]
  · rw [List.filter_append]
    have hnil : (targetPathOf sk p :: (fs.dirs.filter (fun d => src.isPrefixOf d)).map
        (fun d => targetPathOf sk p ++ d.drop src.length)).filter
        (fun d => !(sk.isPrefixOf d)) = [] := by
      apply filter_none_eq
      intro d hd
      rcases List.mem_cons.mp hd with he | hm
      · have hsk : sk.isPrefixOf d = true := by
          rw [he]
          exact pfo_app sk [p]
        simp [hsk]
      · rcases List.mem_map.mp hm with ⟨g, _, hg⟩
        have hsk : sk.isPrefixOf d = true := by
          rw [← hg]
          exact pfo_trans (pfo_app sk [p]) (pfo_app (targetPathOf sk p) _)
        simp [hsk]
    rw [hnil, List.append_nil]

theorem pu_frame (env : Env) (sd sk : Path) (l : List String) :
    ∀ s : St,
      ((processUnits env sd sk l s).1.fs.files.filter (fun f => !(sk.isPrefixOf f.1)) =
        s.fs.files.filter (fun f => !(sk.isPrefixOf f.1))) ∧
      ((processUnits env sd sk l s).1.fs.dirs.filter (fun d => !(sk.isPrefixOf d)) =
        s.fs.dirs.filter (fun d => !(sk.isPrefixOf d))) := by
  induction l with
  | nil =>
    intro s
    exact ⟨rfl, rfl⟩
  | cons p rest ih =>
    intro s
    simp only [processUnits]
    split
    · exact ih _
    · split
      · split
        · exact ⟨(frame_remove_tp s.fs sk p).1, (frame_remove_tp s.fs sk p).2⟩
        · exact ⟨rfl, rfl⟩
      · split
        · constructor
          · rw [(ih _).1]
            simp only
            rw [(frame_copy_tp _ sk p _).1, (frame_remove_tp s.fs sk p).1]
          · rw [(ih _).2]
            simp only
            rw [(frame_copy_tp _ sk p _).2, (frame_remove_tp s.fs sk p).2]
        · constructor
          · rw [(ih _).1]
            simp only
            rw [(frame_copy_tp _ sk p _).1]
          · rw [(ih _).2]
            simp only
            rw [(frame_copy_tp _ sk p _).2]

theorem filesUnder_of_frame {fs1 fs2 : FS} {sd q : Path}
    (hfr : fs1.files.filter (fun f => !(sd.isPrefixOf f.1)) =
      fs2.files.filter (fun f => !(sd.isPrefixOf f.1)))
    (hq : ∀ r : Path, sd.isPrefixOf r = true → q.isPrefixOf r = true → False) :
    fs1.filesUnder q = fs2.filesUnder q := by
  unfold FS.filesUnder
  have hside : ∀ fs : List (Path × String), ∀ f ∈ fs, q.isPrefixOf f.1 = true →
      (!(sd.isPrefixOf f.1)) = true := by
    intro fs f _ hqf
    cases hsd : sd.isPrefixOf f.1 with
    | false => simp
    | true => exact absurd (hq f.1 hsd hqf) (fun x => x)
  rw [← filter_sub_eq fs1.files _ _ (hside fs1.files), ← filter_sub_eq fs2.files _ _ (hside fs2.files),
    hfr]

/-! ### Idempotence of one full install round at the filesystem level -/

theorem round_idem (fs : FS) (sd sr : Path) (a b : String) (t1 t2 : List String)
    (hra : sd.isPrefixOf sr = false) (hrb : sr.isPrefixOf sd = false) (hab : a ≠ b) :
    let X := ((((fs.ensureDir sd).remove (sd ++ [a])).copy (sr ++ t1) (sd ++ [a])).remove
      (sd ++ [b])).copy (sr ++ t2) (sd ++ [b])
    ((((X.ensureDir sd).remove (sd ++ [a])).copy (sr ++ t1) (sd ++ [a])).remove
      (sd ++ [b])).copy (sr ++ t2) (sd ++ [b]) = X := by
  intro X
  have dab : ∀ r : Path, (sd ++ [a]).isPrefixOf r = true → (sd ++ [b]).isPrefixOf r = true → False :=
    reg_t_t hab
  have dba : ∀ r : Path, (sd ++ [b]).isPrefixOf r = true → (sd ++ [a]).isPrefixOf r = true → False :=
    reg_t_t (fun h => hab h.symm)
  have ras2 : ∀ r : Path, (sd ++ [a]).isPrefixOf r = true → (sr ++ t2).isPrefixOf r = true → False :=
    reg_t_sp hra hrb a t2
  have rbs1 : ∀ r : Path, (sd ++ [b]).isPrefixOf r = true → (sr ++ t1).isPrefixOf r = true → False :=
    reg_t_sp hra hrb b t1
  have hex : X.pathExists sd = true := pathExists_copy_dst (pfo_app sd [b])
  rw [ensureDir_of_exists hex]
  show ((((((((fs.ensureDir sd).remove (sd ++ [a])).copy (sr ++ t1) (sd ++ [a])).remove
      (sd ++ [b])).copy (sr ++ t2) (sd ++ [b])).remove (sd ++ [a])).copy (sr ++ t1)
      (sd ++ [a])).remove (sd ++ [b])).copy (sr ++ t2) (sd ++ [b]) = X
  rw [remove_copy_comm dab ras2]
  rw [remove_comm (((fs.ensureDir sd).remove (sd ++ [a])).copy (sr ++ t1) (sd ++ [a]))
    (sd ++ [b]) (sd ++ [a])]
  rw [copy_remove_self ((fs.ensureDir sd).remove (sd ++ [a])) (sr ++ t1) (sd ++ [a])]
  rw [remove_remove_self (fs.ensureDir sd) (sd ++ [a])]
  rw [remove_copy_comm dba rbs1]
  rw [copy_remove_self (((fs.ensureDir sd).remove (sd ++ [a])).remove (sd ++ [b]))
    (sr ++ t2) (sd ++ [b])]
  rw [remove_remove_self ((fs.ensureDir sd).remove (sd ++ [a])) (sd ++ [b])]
  show _ = ((((fs.ensureDir sd).remove (sd ++ [a])).copy (sr ++ t1) (sd ++ [a])).remove
      (sd ++ [b])).copy (sr ++ t2) (sd ++ [b])
  rw [remove_copy_comm dba rbs1]

/-! ### The claims -/

/-- C1: when the bundled source root directory does not exist, `init`
exits with status 1, processes no content units, and performs no
filesystem write strictly below the destination directory: every file
entry is untouched and the existence of every proper descendant of the
destination is unchanged (the destination directory itself may be
created by the ensure-step that precedes the source-root check). -/
theorem c1_source_root_missing (env : Env) (fs0 : FS) (sd : Path)
    (hplat : CLAUDE_SKILLS_DIRS env.home env.platform = some sd)
    (hroot : fs0.pathExists (sourceRootOf env) = false)
    (hrs : (sourceRootOf env).isPrefixOf sd = false) :
    (init env fs0).exitCode = 1 ∧ (init env fs0).installed = [] ∧
    (init env fs0).fs.files = fs0.files ∧
    (∀ q : Path, sd.isPrefixOf q = true → q ≠ sd →
      (init env fs0).fs.pathExists q = fs0.pathExists q) := by
  have hfalse : (fs0.ensureDir sd).pathExists (sourceRootOf env) = false := by
    rw [pathExists_ensureDir_eq hrs]
    exact hroot
  unfold init
  rw [hplat]
  simp only [hfalse, Bool.not_false, if_true]
  refine ⟨trivial, trivial, ensureDir_files fs0 sd, ?_⟩
  intro q hq hne
  apply pathExists_ensureDir_eq
  cases hqs : q.isPrefixOf sd with
  | false => rfl
  | true => exact absurd (pfo_antisymm hqs hq) hne

/-- C1 witness: a concrete Linux run with the package source root
absent. -/
theorem c1_witness :
    (CLAUDE_SKILLS_DIRS envW.home envW.platform =
        some ["home", "u", ".config", "Claude", "skills"] ∧
      fsNoRoot.pathExists (sourceRootOf envW) = false ∧
      (sourceRootOf envW).isPrefixOf ["home", "u", ".config", "Claude", "skills"] = false) ∧
    (init envW fsNoRoot).exitCode = 1 ∧ (init envW fsNoRoot).installed = [] ∧
    (init envW fsNoRoot).fs.files = fsNoRoot.files ∧
    (init envW fsNoRoot).fs.pathExists
        ["home", "u", ".config", "Claude", "skills", "aptos-move-contract"] =
      fsNoRoot.pathExists ["home", "u", ".config", "Claude", "skills", "aptos-move-contract"] := by
  have h := c1_source_root_missing envW fsNoRoot ["home", "u", ".config", "Claude", "skills"]
    (by decide) (by decide) (by decide)
  exact ⟨⟨by decide, by decide, by decide⟩, h.1, h.2.1, h.2.2.1,
    h.2.2.2 ["home", "u", ".config", "Claude", "skills", "aptos-move-contract"]
      (by decide) (by decide)⟩

/-- C2: on an unsupported platform, `init` exits with status 1 having
performed no filesystem side effect at all and processed no units. -/
theorem c2_unsupported_platform (env : Env) (fs0 : FS)
    (h1 : env.platform ≠ "darwin") (h2 : env.platform ≠ "linux")
    (h3 : env.platform ≠ "win32") :
    (init env fs0).fs = fs0 ∧ (init env fs0).exitCode = 1 ∧
    (init env fs0).installed = [] := by
  have hnone : CLAUDE_SKILLS_DIRS env.home env.platform = none := by
    unfold CLAUDE_SKILLS_DIRS
    rw [if_neg h1, if_neg h2, if_neg h3]
  unfold init
  rw [hnone]
  exact ⟨rfl, rfl, rfl⟩

/-- C2 witness: a concrete run on a FreeBSD host. -/
theorem c2_witness :
    (envBSD.platform ≠ "darwin" ∧ envBSD.platform ≠ "linux" ∧ envBSD.platform ≠ "win32") ∧
    (init envBSD fsW).fs = fsW ∧ (init envBSD fsW).exitCode = 1 := by
  have h := c2_unsupported_platform envBSD fsW (by decide) (by decide) (by decide)
  exact ⟨⟨by decide, by decide, by decide⟩, h.1, h.2.1⟩

/-- C3: in a successful run (supported platform, source root and both
unit sources present, no copy failure), each unit whose destination
pre-existed is fully replaced: afterwards the tree below the unit
destination is exactly the bundled source tree of that unit, so no
stale file survives. -/
theorem c3_full_replace (env : Env) (fs0 : FS) (sd : Path)
    (hplat : CLAUDE_SKILLS_DIRS env.home env.platform = some sd)
    (hra : sd.isPrefixOf (sourceRootOf env) = false)
    (hrb : (sourceRootOf env).isPrefixOf sd = false)
    (hroot : fs0.pathExists (sourceRootOf env) = true)
    (h1 : fs0.pathExists (sourcePathOf (sourceRootOf env) "aptos-move-contract") = true)
    (h2 : fs0.pathExists (sourcePathOf (sourceRootOf env) "aptos-ts-sdk") = true)
    (ht1 : fs0.pathExists (targetPathOf sd "aptos-move-contract") = true)
    (ht2 : fs0.pathExists (targetPathOf sd "aptos-ts-sdk") = true)
    (hc1 : env.copyFails "aptos-move-contract" = none)
    (hc2 : env.copyFails "aptos-ts-sdk" = none) :
    (init env fs0).fs.filesUnder (targetPathOf sd "aptos-move-contract") =
      fs0.filesUnder (sourcePathOf (sourceRootOf env) "aptos-move-contract") ∧
    (init env fs0).fs.filesUnder (targetPathOf sd "aptos-ts-sdk") =
      fs0.filesUnder (sourcePathOf (sourceRootOf env) "aptos-ts-sdk") := by
  obtain ⟨ms, hrun⟩ := init_char_ok env fs0 sd hplat hra hrb hroot h1 h2 hc1 hc2
  rw [hrun]
  have d12 : ∀ r : Path, (targetPathOf sd "aptos-ts-sdk").isPrefixOf r = true →
      (targetPathOf sd "aptos-move-contract").isPrefixOf r = true → False :=
    reg_t_t (by decide)
  have d21 : ∀ r : Path, (targetPathOf sd "aptos-move-contract").isPrefixOf r = true →
      (targetPathOf sd "aptos-ts-sdk").isPrefixOf r = true → False :=
    reg_t_t (by decide)
  have r1s1 : ∀ r : Path, (targetPathOf sd "aptos-move-contract").isPrefixOf r = true →
      (sourcePathOf (sourceRootOf env) "aptos-move-contract").isPrefixOf r = true → False :=
    reg_t_sp hra hrb "aptos-move-contract" ["aptos-move-contract", "skills", "aptos-move-contract"]
  have r1s2 : ∀ r : Path, (targetPathOf sd "aptos-move-contract").isPrefixOf r = true →
      (sourcePathOf (sourceRootOf env) "aptos-ts-sdk").isPrefixOf r = true → False :=
    reg_t_sp hra hrb "aptos-move-contract" ["aptos-ts-sdk", "skills", "aptos-ts-sdk"]
  have r2s2 : ∀ r : Path, (targetPathOf sd "aptos-ts-sdk").isPrefixOf r = true →
      (sourcePathOf (sourceRootOf env) "aptos-ts-sdk").isPrefixOf r = true → False :=
    reg_t_sp hra hrb "aptos-ts-sdk" ["aptos-ts-sdk", "skills", "aptos-ts-sdk"]
  constructor
  · show (InitResult.fs _).filesUnder _ = _
    simp only
    rw [filesUnder_copy_eq d12, filesUnder_remove_eq d12,
      filesUnder_copy_self (remove_clean (fs0.ensureDir sd) (targetPathOf sd "aptos-move-contract")),
      filesUnder_remove_eq r1s1, filesUnder_ensureDir]
  · show (InitResult.fs _).filesUnder _ = _
    simp only
    rw [filesUnder_copy_self
        (remove_clean _ (targetPathOf sd "aptos-ts-sdk")),
      filesUnder_remove_eq r2s2, filesUnder_copy_eq r1s2, filesUnder_remove_eq r1s2,
      filesUnder_ensureDir]

/-- C3 witness: a Linux run over a state with stale files below both
destinations; both destination trees end up exactly the bundled ones. -/
theorem c3_witness :
    (CLAUDE_SKILLS_DIRS envW.home envW.platform =
        some ["home", "u", ".config", "Claude", "skills"] ∧
      fsW.pathExists (sourceRootOf envW) = true ∧
      fsW.pathExists (targetPathOf ["home", "u", ".config", "Claude", "skills"]
        "aptos-move-contract") = true) ∧
    (init envW fsW).fs.filesUnder
        (targetPathOf ["home", "u", ".config", "Claude", "skills"] "aptos-move-contract") =
      fsW.filesUnder (sourcePathOf (sourceRootOf envW) "aptos-move-contract") ∧
    (init envW fsW).fs.filesUnder
        (targetPathOf ["home", "u", ".config", "Claude", "skills"] "aptos-ts-sdk") =
      fsW.filesUnder (sourcePathOf (sourceRootOf envW) "aptos-ts-sdk") := by
  have h := c3_full_replace envW fsW ["home", "u", ".config", "Claude", "skills"]
    (by decide) (by decide) (by decide) (by decide) (by decide) (by decide) (by decide)
    (by decide) (by decide) (by decide)
  exact ⟨⟨by decide, by decide, by decide⟩, h.1, h.2⟩

/-- C4: running `init` twice over an unchanged package is idempotent at
the filesystem level: the state after the second run equals the state
after the first run (in particular the destination tree is unchanged). -/
theorem c4_idempotent (env : Env) (fs0 : FS) (sd : Path)
    (hplat : CLAUDE_SKILLS_DIRS env.home env.platform = some sd)
    (hra : sd.isPrefixOf (sourceRootOf env) = false)
    (hrb : (sourceRootOf env).isPrefixOf sd = false)
    (hroot : fs0.pathExists (sourceRootOf env) = true)
    (h1 : fs0.pathExists (sourcePathOf (sourceRootOf env) "aptos-move-contract") = true)
    (h2 : fs0.pathExists (sourcePathOf (sourceRootOf env) "aptos-ts-sdk") = true)
    (hc1 : env.copyFails "aptos-move-contract" = none)
    (hc2 : env.copyFails "aptos-ts-sdk" = none) :
    (init env ((init env fs0).fs)).fs = (init env fs0).fs := by
  obtain ⟨ms1, hrun1⟩ := init_char_ok env fs0 sd hplat hra hrb hroot h1 h2 hc1 hc2
  have hq1 : (sourcePathOf (sourceRootOf env) "aptos-move-contract").isPrefixOf sd = false :=
    (incomp_app ["aptos-move-contract", "skills", "aptos-move-contract"] hra hrb).2
  have hq2 : (sourcePathOf (sourceRootOf env) "aptos-ts-sdk").isPrefixOf sd = false :=
    (incomp_app ["aptos-ts-sdk", "skills", "aptos-ts-sdk"] hra hrb).2
  have r1sr : ∀ r : Path, (targetPathOf sd "aptos-move-contract").isPrefixOf r = true →
      (sourceRootOf env).isPrefixOf r = true → False :=
    reg_t_sr hra hrb "aptos-move-contract"
  have r2sr : ∀ r : Path, (targetPathOf sd "aptos-ts-sdk").isPrefixOf r = true →
      (sourceRootOf env).isPrefixOf r = true → False :=
    reg_t_sr hra hrb "aptos-ts-sdk"
  have r1s1 : ∀ r : Path, (targetPathOf sd "aptos-move-contract").isPrefixOf r = true →
      (sourcePathOf (sourceRootOf env) "aptos-move-contract").isPrefixOf r = true → False :=
    reg_t_sp hra hrb "aptos-move-contract" ["aptos-move-contract", "skills", "aptos-move-contract"]
  have r1s2 : ∀ r : Path, (targetPathOf sd "aptos-move-contract").isPrefixOf r = true →
      (sourcePathOf (sourceRootOf env) "aptos-ts-sdk").isPrefixOf r = true → False :=
    reg_t_sp hra hrb "aptos-move-contract" ["aptos-ts-sdk", "skills", "aptos-ts-sdk"]
  have r2s1 : ∀ r : Path, (targetPathOf sd "aptos-ts-sdk").isPrefixOf r = true →
      (sourcePathOf (sourceRootOf env) "aptos-move-contract").isPrefixOf r = true → False :=
    reg_t_sp hra hrb "aptos-ts-sdk" ["aptos-move-contract", "skills", "aptos-move-contract"]
  have r2s2 : ∀ r : Path, (targetPathOf sd "aptos-ts-sdk").isPrefixOf r = true →
      (sourcePathOf (sourceRootOf env) "aptos-ts-sdk").isPrefixOf r = true → False :=
    reg_t_sp hra hrb "aptos-ts-sdk" ["aptos-ts-sdk", "skills", "aptos-ts-sdk"]
  have hroot2 : (((((fs0.ensureDir sd).remove (targetPathOf sd "aptos-move-contract")).copy
      (sourcePathOf (sourceRootOf env) "aptos-move-contract")
      (targetPathOf sd "aptos-move-contract")).remove
      (targetPathOf sd "aptos-ts-sdk")).copy
      (sourcePathOf (sourceRootOf env) "aptos-ts-sdk")
      (targetPathOf sd "aptos-ts-sdk")).pathExists (sourceRootOf env) = true := by
    rw [pathExists_copy_eq r2sr, pathExists_remove_eq r2sr, pathExists_copy_eq r1sr,
      pathExists_remove_eq r1sr, pathExists_ensureDir_eq hrb]
    exact hroot
  have h1b : (((((fs0.ensureDir sd).remove (targetPathOf sd "aptos-move-contract")).copy
      (sourcePathOf (sourceRootOf env) "aptos-move-contract")
      (targetPathOf sd "aptos-move-contract")).remove
      (targetPathOf sd "aptos-ts-sdk")).copy
      (sourcePathOf (sourceRootOf env) "aptos-ts-sdk")
      (targetPathOf sd "aptos-ts-sdk")).pathExists
      (sourcePathOf (sourceRootOf env) "aptos-move-contract") = true := by
    rw [pathExists_copy_eq r2s1, pathExists_remove_eq r2s1, pathExists_copy_eq r1s1,
      pathExists_remove_eq r1s1, pathExists_ensureDir_eq hq1]
    exact h1
  have h2b : (((((fs0.ensureDir sd).remove (targetPathOf sd "aptos-move-contract")).copy
      (sourcePathOf (sourceRootOf env) "aptos-move-contract")
      (targetPathOf sd "aptos-move-contract")).remove
      (targetPathOf sd "aptos-ts-sdk")).copy
      (sourcePathOf (sourceRootOf env) "aptos-ts-sdk")
      (targetPathOf sd "aptos-ts-sdk")).pathExists
      (sourcePathOf (sourceRootOf env) "aptos-ts-sdk") = true := by
    rw [pathExists_copy_eq r2s2, pathExists_remove_eq r2s2, pathExists_copy_eq r1s2,
      pathExists_remove_eq r1s2, pathExists_ensureDir_eq hq2]
    exact h2
  obtain ⟨ms2, hrun2⟩ := init_char_ok env
    (((((fs0.ensureDir sd).remove (targetPathOf sd "aptos-move-contract")).copy
      (sourcePathOf (sourceRootOf env) "aptos-move-contract")
      (targetPathOf sd "aptos-move-contract")).remove
      (targetPathOf sd "aptos-ts-sdk")).copy
      (sourcePathOf (sourceRootOf env) "aptos-ts-sdk")
      (targetPathOf sd "aptos-ts-sdk"))
    sd hplat hra hrb hroot2 h1b h2b hc1 hc2
  rw [hrun1]
  simp only
  rw [hrun2]
  simp only
  exact round_idem fs0 sd (sourceRootOf env) "aptos-move-contract" "aptos-ts-sdk"
    ["aptos-move-contract", "skills", "aptos-move-contract"]
    ["aptos-ts-sdk", "skills", "aptos-ts-sdk"] hra hrb (by decide)

/-- C4 witness: a concrete Linux run repeated twice reaches a fixed
point. -/
theorem c4_witness :
    (CLAUDE_SKILLS_DIRS envW.home envW.platform =
        some ["home", "u", ".config", "Claude", "skills"] ∧
      fsW.pathExists (sourceRootOf envW) = true) ∧
    (init envW ((init envW fsW).fs)).fs = (init envW fsW).fs := by
  have h := c4_idempotent envW fsW ["home", "u", ".config", "Claude", "skills"]
    (by decide) (by decide) (by decide) (by decide) (by decide) (by decide)
    (by decide) (by decide)
  exact ⟨⟨by decide, by decide⟩, h⟩

/-- C5: when exactly one of the two unit sources is missing (and the
present unit copies without error), `init` skips the missing unit with
exactly one warning, installs the other unit with its full source tree,
and exits 0. -/
theorem c5_skip_one (env : Env) (fs0 : FS) (sd : Path)
    (hplat : CLAUDE_SKILLS_DIRS env.home env.platform = some sd)
    (hra : sd.isPrefixOf (sourceRootOf env) = false)
    (hrb : (sourceRootOf env).isPrefixOf sd = false)
    (hroot : fs0.pathExists (sourceRootOf env) = true)
    (hc : ∀ p : String, env.copyFails p = none)
    (hone : (fs0.pathExists (sourcePathOf (sourceRootOf env) "aptos-move-contract") = false ∧
        fs0.pathExists (sourcePathOf (sourceRootOf env) "aptos-ts-sdk") = true) ∨
      (fs0.pathExists (sourcePathOf (sourceRootOf env) "aptos-move-contract") = true ∧
        fs0.pathExists (sourcePathOf (sourceRootOf env) "aptos-ts-sdk") = false)) :
    (init env fs0).exitCode = 0 ∧
    (init env fs0).msgs.countP Msg.isWarn = 1 ∧
    (fs0.pathExists (sourcePathOf (sourceRootOf env) "aptos-move-contract") = false →
      (init env fs0).installed = ["aptos-ts-sdk"] ∧
      (init env fs0).fs.filesUnder (targetPathOf sd "aptos-ts-sdk") =
        fs0.filesUnder (sourcePathOf (sourceRootOf env) "aptos-ts-sdk")) ∧
    (fs0.pathExists (sourcePathOf (sourceRootOf env) "aptos-ts-sdk") = false →
      (init env fs0).installed = ["aptos-move-contract"] ∧
      (init env fs0).fs.filesUnder (targetPathOf sd "aptos-move-contract") =
        fs0.filesUnder (sourcePathOf (sourceRootOf env) "aptos-move-contract")) := by
  rcases hone with ⟨hm1, hp2⟩ | ⟨hp1, hm2⟩
  · obtain ⟨ms, hrun, hcount⟩ :=
      init_char_skip1 env fs0 sd hplat hra hrb hroot hm1 hp2 (hc "aptos-ts-sdk")
    have r2s2 : ∀ r : Path, (targetPathOf sd "aptos-ts-sdk").isPrefixOf r = true →
        (sourcePathOf (sourceRootOf env) "aptos-ts-sdk").isPrefixOf r = true → False :=
      reg_t_sp hra hrb "aptos-ts-sdk" ["aptos-ts-sdk", "skills", "aptos-ts-sdk"]
    rw [hrun]
    refine ⟨rfl, hcount, ?_, ?_⟩
    · intro _
      refine ⟨rfl, ?_⟩
      show (InitResult.fs _).filesUnder _ = _
      simp only
      rw [filesUnder_copy_self (remove_clean (fs0.ensureDir sd) (targetPathOf sd "aptos-ts-sdk")),
        filesUnder_remove_eq r2s2, filesUnder_ensureDir]
    · intro hbad
      rw [hp2] at hbad
      cases hbad
  · obtain ⟨ms, hrun, hcount⟩ :=
      init_char_skip2 env fs0 sd hplat hra hrb hroot hp1 hm2 (hc "aptos-move-contract")
    have r1s1 : ∀ r : Path, (targetPathOf sd "aptos-move-contract").isPrefixOf r = true →
        (sourcePathOf (sourceRootOf env) "aptos-move-contract").isPrefixOf r = true → False :=
      reg_t_sp hra hrb "aptos-move-contract" ["aptos-move-contract", "skills", "aptos-move-contract"]
    rw [hrun]
    refine ⟨rfl, hcount, ?_, ?_⟩
    · intro hbad
      rw [hp1] at hbad
      cases hbad
    · intro _
      refine ⟨rfl, ?_⟩
      show (InitResult.fs _).filesUnder _ = _
      simp only
      rw [filesUnder_copy_self (remove_clean (fs0.ensureDir sd) (targetPathOf sd "aptos-move-contract")),
        filesUnder_remove_eq r1s1, filesUnder_ensureDir]

/-- C5 witness: a Linux run over a package bundling only the second
unit: one warning, the second unit installed, exit 0. -/
theorem c5_witness :
    (CLAUDE_SKILLS_DIRS envW.home envW.platform =
        some ["home", "u", ".config", "Claude", "skills"] ∧
      fsMissing1.pathExists (sourcePathOf (sourceRootOf envW) "aptos-move-contract") = false ∧
      fsMissing1.pathExists (sourcePathOf (sourceRootOf envW) "aptos-ts-sdk") = true) ∧
    (init envW fsMissing1).exitCode = 0 ∧
    (init envW fsMissing1).msgs.countP Msg.isWarn = 1 ∧
    (init envW fsMissing1).installed = ["aptos-ts-sdk"] := by
  have h := c5_skip_one envW fsMissing1 ["home", "u", ".config", "Claude", "skills"]
    (by decide) (by decide) (by decide) (by decide) (fun _ => rfl)
    (Or.inl ⟨by decide, by decide⟩)
  exact ⟨⟨by decide, by decide, by decide⟩, h.1, h.2.1, (h.2.2.1 (by decide)).1⟩

/-- C6: if the recursive copy of the second unit fails, the run aborts
with exit code 1, the error message is surfaced on the console, and the
first unit — already copied earlier in the same run — remains installed
with its full source tree (no rollback). -/
theorem c6_copy_failure_aborts (env : Env) (fs0 : FS) (sd : Path) (e : String)
    (hplat : CLAUDE_SKILLS_DIRS env.home env.platform = some sd)
    (hra : sd.isPrefixOf (sourceRootOf env) = false)
    (hrb : (sourceRootOf env).isPrefixOf sd = false)
    (hroot : fs0.pathExists (sourceRootOf env) = true)
    (h1 : fs0.pathExists (sourcePathOf (sourceRootOf env) "aptos-move-contract") = true)
    (h2 : fs0.pathExists (sourcePathOf (sourceRootOf env) "aptos-ts-sdk") = true)
    (hc1 : env.copyFails "aptos-move-contract" = none)
    (hc2 : env.copyFails "aptos-ts-sdk" = some e) :
    (init env fs0).exitCode = 1 ∧
    Msg.error (s!"Error installing Move Skills: {e}") ∈ (init env fs0).msgs ∧
    (init env fs0).fs.filesUnder (targetPathOf sd "aptos-move-contract") =
      fs0.filesUnder (sourcePathOf (sourceRootOf env) "aptos-move-contract") := by
  obtain ⟨ms, hrun, hmem⟩ :=
    init_char_fail2 env fs0 sd e hplat hra hrb hroot h1 h2 hc1 hc2
  have d12 : ∀ r : Path, (targetPathOf sd "aptos-ts-sdk").isPrefixOf r = true →
      (targetPathOf sd "aptos-move-contract").isPrefixOf r = true → False :=
    reg_t_t (by decide)
  have r1s1 : ∀ r : Path, (targetPathOf sd "aptos-move-contract").isPrefixOf r = true →
      (sourcePathOf (sourceRootOf env) "aptos-move-contract").isPrefixOf r = true → False :=
    reg_t_sp hra hrb "aptos-move-contract" ["aptos-move-contract", "skills", "aptos-move-contract"]
  rw [hrun]
  refine ⟨rfl, hmem, ?_⟩
  show (InitResult.fs _).filesUnder _ = _
  simp only
  rw [filesUnder_remove_eq d12,
    filesUnder_copy_self (remove_clean (fs0.ensureDir sd) (targetPathOf sd "aptos-move-contract")),
    filesUnder_remove_eq r1s1, filesUnder_ensureDir]

/-- C6 witness: a Linux run in which the copy of the second unit throws
EACCES: exit 1, error surfaced, the first unit remains on disk. -/
theorem c6_witness :
    (envFail2.copyFails "aptos-move-contract" = none ∧
      envFail2.copyFails "aptos-ts-sdk" = some "EACCES") ∧
    (init envFail2 fsW).exitCode = 1 ∧
    Msg.error "Error installing Move Skills: EACCES" ∈ (init envFail2 fsW).msgs ∧
    (init envFail2 fsW).fs.filesUnder
        (targetPathOf ["home", "u", ".config", "Claude", "skills"] "aptos-move-contract") =
      fsW.filesUnder (sourcePathOf (sourceRootOf envFail2) "aptos-move-contract") := by
  have h := c6_copy_failure_aborts envFail2 fsW ["home", "u", ".config", "Claude", "skills"]
    "EACCES" (by decide) (by decide) (by decide) (by decide) (by decide) (by decide)
    (by decide) (by decide)
  exact ⟨⟨by decide, by decide⟩, h.1, by simpa using h.2.1, h.2.2⟩

/-- C9: when a unit destination pre-exists and the recursive copy of
that unit then fails, the previously installed copy has already been
deleted and is not restored: after the aborted run (exit 1) the unit
destination does not exist at all. -/
theorem c9_failed_update_leaves_unit_absent (env : Env) (fs0 : FS) (sd : Path) (e : String)
    (hplat : CLAUDE_SKILLS_DIRS env.home env.platform = some sd)
    (hroot : fs0.pathExists (sourceRootOf env) = true)
    (h1 : fs0.pathExists (sourcePathOf (sourceRootOf env) "aptos-move-contract") = true)
    (ht1 : fs0.pathExists (targetPathOf sd "aptos-move-contract") = true)
    (hc1 : env.copyFails "aptos-move-contract" = some e) :
    (init env fs0).exitCode = 1 ∧
    (init env fs0).fs.pathExists (targetPathOf sd "aptos-move-contract") = false := by
  obtain ⟨ms, hrun⟩ := init_char_fail1 env fs0 sd e hplat hroot h1 hc1
  rw [hrun]
  exact ⟨rfl, pathExists_remove_self (fs0.ensureDir sd) (targetPathOf sd "aptos-move-contract")⟩

/-- C9 witness: a Linux run with a stale previous installation of the
first unit and a failing copy: the unit ends up absent. -/
theorem c9_witness :
    (fsW.pathExists (targetPathOf ["home", "u", ".config", "Claude", "skills"]
        "aptos-move-contract") = true ∧
      envFail1.copyFails "aptos-move-contract" = some "EACCES") ∧
    (init envFail1 fsW).exitCode = 1 ∧
    (init envFail1 fsW).fs.pathExists
      (targetPathOf ["home", "u", ".config", "Claude", "skills"] "aptos-move-contract") = false := by
  have h := c9_failed_update_leaves_unit_absent envFail1 fsW
    ["home", "u", ".config", "Claude", "skills"] "EACCES"
    (by decide) (by decide) (by decide) (by decide) (by decide)
  exact ⟨⟨by decide, by decide⟩, h.1, h.2⟩

/-- C7 counterexample: a run that completes successfully with the first
unit skipped (it was not installed in that run), yet the summary still
lists the first unit name — the summary does not list the units
installed in that run. -/
theorem c7_counterexample :
    (init envW fsMissing1).exitCode = 0 ∧
    (init envW fsMissing1).installed = ["aptos-ts-sdk"] ∧
    summaryBullet "aptos-move-contract" "Move smart contract development" ∈
      (init envW fsMissing1).msgs := by decide

/-- C7 (amended): whenever `init` completes without a fatal error, it
emits the fixed summary block listing the names of all known content
units (both plugin names), regardless of which units were actually
installed in that run. -/
theorem c7_summary_fixed (env : Env) (fs0 : FS)
    (h : (init env fs0).exitCode = 0) :
    summaryBullet "aptos-move-contract" "Move smart contract development" ∈
      (init env fs0).msgs ∧
    summaryBullet "aptos-ts-sdk" "Aptos TypeScript SDK integration" ∈
      (init env fs0).msgs := by
  unfold init at h ⊢
  cases hcl : CLAUDE_SKILLS_DIRS env.home env.platform with
  | none =>
    rw [hcl] at h
    simp at h
  | some sd =>
    rw [hcl] at h
    cases hsrc : (fs0.ensureDir sd).pathExists (sourceRootOf env) with
    | false =>
      simp only [hsrc, Bool.not_false, if_true] at h
      simp at h
    | true =>
      simp only [hsrc, Bool.not_true, Bool.false_eq_true, if_false] at h ⊢
      rcases hpu : processUnits env (sourceRootOf env) sd plugins
        ⟨fs0.ensureDir sd, startMsgs, []⟩ with ⟨st, b⟩
      rw [hpu] at h
      cases b with
      | true => simp at h
      | false =>
        constructor
        · show _ ∈ st.msgs ++ summaryMsgs
          apply List.mem_append.mpr
          right
          simp [summaryMsgs]
        · show _ ∈ st.msgs ++ summaryMsgs
          apply List.mem_append.mpr
          right
          simp [summaryMsgs]

/-- C7 witness: a fully successful concrete run reaches the summary and
both bullets appear. -/
theorem c7_witness :
    (init envW fsW).exitCode = 0 ∧
    summaryBullet "aptos-move-contract" "Move smart contract development" ∈
      (init envW fsW).msgs ∧
    summaryBullet "aptos-ts-sdk" "Aptos TypeScript SDK integration" ∈
      (init envW fsW).msgs := by
  have h := c7_summary_fixed envW fsW (by decide)
  exact ⟨by decide, h.1, h.2⟩

/-- C8 counterexample: the empty string is a command-line token other
than `init`, `--help` and `-h`, yet the CLI treats it like a missing
argument: it prints the usage hint and exits 0, not 1. -/
theorem c8_counterexample :
    (("" : String) ≠ "init" ∧ ("" : String) ≠ "--help" ∧ ("" : String) ≠ "-h") ∧
    (main (some "") envW fsW).exitCode = 0 ∧
    (main (some "") envW fsW).fs = fsW := by decide

/-- C8 (amended): for every nonempty command token other than `init`,
`--help` and `-h`, the CLI prints the unknown-command error plus the
usage hint, leaves the filesystem unchanged, and exits 1; the empty
token instead falls into the no-argument usage branch with exit 0. -/
theorem c8_unknown_command (c : String) (env : Env) (fs0 : FS)
    (h1 : c ≠ "init") (h2 : c ≠ "--help") (h3 : c ≠ "-h") (h4 : c ≠ "") :
    (main (some c) env fs0).fs = fs0 ∧ (main (some c) env fs0).exitCode = 1 ∧
    (main (some c) env fs0).msgs =
      [Msg.error (s!"Unknown command: {c}"),
       Msg.info "Run npx move-skills --help for usage information"] := by
  unfold main
  rw [if_neg (show ¬(some c = some "init") by simp [h1]),
    if_neg (show ¬(some c = some "--help" ∨ some c = some "-h") by simp [h2, h3]),
    if_neg (show ¬(falsy (some c) = true) by simp [falsy, h4])]
  exact ⟨rfl, rfl, rfl⟩

/-- C8 witness: the token `status` is rejected with exit 1 and no
filesystem change. -/
theorem c8_witness :
    (("status" : String) ≠ "init" ∧ ("status" : String) ≠ "--help" ∧
      ("status" : String) ≠ "-h" ∧ ("status" : String) ≠ "") ∧
    (main (some "status") envW fsW).fs = fsW ∧
    (main (some "status") envW fsW).exitCode = 1 := by
  have h := c8_unknown_command "status" envW fsW (by decide) (by decide) (by decide) (by decide)
  exact ⟨⟨by decide, by decide, by decide, by decide⟩, h.1, h.2.1⟩

/-- C10: every filesystem write of `init` is at or below the resolved
destination directory: entries outside the destination subtree are
exactly preserved (in any run, whatever succeeds or fails), and in
particular the bundled source tree is read but never modified. -/
theorem c10_writes_confined (env : Env) (fs0 : FS) (sd : Path)
    (hplat : CLAUDE_SKILLS_DIRS env.home env.platform = some sd)
    (hra : sd.isPrefixOf (sourceRootOf env) = false)
    (hrb : (sourceRootOf env).isPrefixOf sd = false) :
    ((init env fs0).fs.files.filter (fun f => !(sd.isPrefixOf f.1)) =
      fs0.files.filter (fun f => !(sd.isPrefixOf f.1))) ∧
    ((init env fs0).fs.dirs.filter (fun d => !(sd.isPrefixOf d)) =
      fs0.dirs.filter (fun d => !(sd.isPrefixOf d))) ∧
    (init env fs0).fs.filesUnder (sourceRootOf env) = fs0.filesUnder (sourceRootOf env) := by
  have hsr : ∀ r : Path, sd.isPrefixOf r = true →
      (sourceRootOf env).isPrefixOf r = true → False := no_common_below hra hrb
  suffices hfr : ((init env fs0).fs.files.filter (fun f => !(sd.isPrefixOf f.1)) =
      fs0.files.filter (fun f => !(sd.isPrefixOf f.1))) ∧
      ((init env fs0).fs.dirs.filter (fun d => !(sd.isPrefixOf d)) =
        fs0.dirs.filter (fun d => !(sd.isPrefixOf d))) by
    exact ⟨hfr.1, hfr.2, filesUnder_of_frame hfr.1 hsr⟩
  have hE : ((fs0.ensureDir sd).files.filter (fun f => !(sd.isPrefixOf f.1)) =
      fs0.files.filter (fun f => !(sd.isPrefixOf f.1))) ∧
      ((fs0.ensureDir sd).dirs.filter (fun d => !(sd.isPrefixOf d)) =
        fs0.dirs.filter (fun d => !(sd.isPrefixOf d))) := by
    unfold FS.ensureDir
    split
    · exact ⟨rfl, rfl⟩
    · refine ⟨rfl, ?_⟩
      simp only
      rw [List.filter_append]
      have hone : [sd].filter (fun d => !(sd.isPrefixOf d)) = [] := by
        simp [pfo_refl]
      rw [hone, List.append_nil]
  unfold init
  rw [hplat]
  cases hsrc : (fs0.ensureDir sd).pathExists (sourceRootOf env) with
  | false =>
    simp only [hsrc, Bool.not_false, if_true]
    exact hE
  | true =>
    simp only [hsrc, Bool.not_true, Bool.false_eq_true, if_false]
    rcases hpu : processUnits env (sourceRootOf env) sd plugins
      ⟨fs0.ensureDir sd, startMsgs, []⟩ with ⟨st, b⟩
    have hf := pu_frame env (sourceRootOf env) sd plugins ⟨fs0.ensureDir sd, startMsgs, []⟩
    rw [hpu] at hf
    cases b with
    | true => exact ⟨(hf.1).trans hE.1, (hf.2).trans hE.2⟩
    | false => exact ⟨(hf.1).trans hE.1, (hf.2).trans hE.2⟩

/-- C10 witness: a concrete run leaves everything outside the
destination, and the bundled source tree, untouched. -/
theorem c10_witness :
    (CLAUDE_SKILLS_DIRS envW.home envW.platform =
        some ["home", "u", ".config", "Claude", "skills"]) ∧
    ((init envW fsW).fs.files.filter
        (fun f => !((["home", "u", ".config", "Claude", "skills"] : Path).isPrefixOf f.1)) =
      fsW.files.filter
        (fun f => !((["home", "u", ".config", "Claude", "skills"] : Path).isPrefixOf f.1))) ∧
    (init envW fsW).fs.filesUnder (sourceRootOf envW) = fsW.filesUnder (sourceRootOf envW) := by
  have h := c10_writes_confined envW fsW ["home", "u", ".config", "Claude", "skills"]
    (by decide) (by decide) (by decide)
  exact ⟨by decide, h.1, h.2.2⟩

end MoveSkills
